import Mathlib

/-!
Shallow embedding of `src/alarm_cond.c` (the second file, `src/unnamed/part_000`,
is a near-identical earlier draft of the same program; where both define a
function, `alarm_cond.c` is the embedded authority and differences are noted).

Machine integers (`int`, `time_t`) are modelled as `Int`; the effect of each
`printf` is modelled as an element of the `Out` type appended to an output
list; the linked list `alarm_list` is a `List Alarm`; the globals
`alarm_list` and `current_alarm` form a `QState`.
-/

namespace AlarmCond

/-- Embedding of `struct alarm_tag` (alarm_cond.c:26-35).  The `link` field is
the list structure itself; `char message[128]` is modelled as the list of its
characters up to the terminating NUL. -/
structure Alarm where
  type : Char
  seconds : Int
  messageType : Int
  messageNumber : Int
  time : Int
  message : List Char
deriving DecidableEq, Repr

/-- One element per `printf`/`fprintf` in the program; arguments record the
values interpolated into the format string (the wall-clock `time(NULL)`
argument of the insertion messages is not modelled). -/
inductive Out where
  /-- alarm_cond.c:61 — "Type A Replacement Alarm Request With Message Number %d Inserted ..." -/
  | replacedA (num : Int) (ty : Char)
  /-- alarm_cond.c:70 — "Type A Alarm Request With Message Number %d Inserted ..." -/
  | insertedA (num : Int) (ty : Char)
  /-- alarm_cond.c:173 — "(%d) %s" printed when the worker fires an alarm -/
  | fired (seconds : Int) (msg : List Char)
  /-- alarm_cond.c:279 — fprintf stderr "Bad command" (case 'A' parse failure) -/
  | badCommand
  /-- alarm_cond.c:306 — case 'B' first-loop error -/
  | errBNo (mt : Int)
  /-- alarm_cond.c:315 — case 'B' second-loop error -/
  | errBDup (mt : Int)
  /-- alarm_cond.c:346 — case 'C' first-loop error -/
  | errCNo (num : Int)
  /-- alarm_cond.c:355 — case 'C' second-loop error -/
  | errCDup (num : Int)
  /-- alarm_cond.c:369 — "Type C Cancel Alarm Request ... Inserted ..." -/
  | insertedC (num : Int) (ty : Char)
  /-- alarm_cond.c:387 — case 'D' first-loop error -/
  | errDNo (mt : Int)
  /-- alarm_cond.c:396 — case 'D' second-loop error -/
  | errDDup (mt : Int)
  /-- alarm_cond.c:410 — "Type D Pause Thread Alarm Request ... Inserted ..." -/
  | insertedD (mt : Int)
  /-- alarm_cond.c:428 — case 'E' first-loop error -/
  | errENo (mt : Int)
  /-- alarm_cond.c:437 — case 'E' second-loop error -/
  | errEDup (mt : Int)
  /-- alarm_cond.c:451 — "Type E Resume Thread Alarm Request ... Inserted ..." -/
  | insertedE (mt : Int)
  /-- alarm_cond.c:459 — printf "bad command" (default switch case) -/
  | badCommand2
deriving DecidableEq, Repr

/-- The two globals touched by `alarm_insert`: `alarm_list` (alarm_cond.c:39)
and `current_alarm` (alarm_cond.c:40). -/
structure QState where
  list : List Alarm
  marker : Int
deriving DecidableEq, Repr

/-- Result of one `alarm_insert` call: the updated globals, the number of
`pthread_cond_signal` calls made, and the lines printed. -/
structure InsOut where
  st : QState
  signals : Nat
  out : List Out
deriving DecidableEq, Repr

/-- The scan loop of `alarm_insert` (alarm_cond.c:56-85) acting on the list.
Branch 1 (line 60): an existing entry has `type == 'A'` and the incoming
alarm's `messageNumber` — the C code sets `alarm->link = next; next = alarm;`
and breaks, but never stores `alarm` through `*last`, so the list heads/links
are untouched: the function returns the list unchanged (only the replacement
message is printed).  Branch 2 (line 66): first entry with `time >=
alarm->time` — link the new alarm before it.  Loop exit with `next == NULL`
(line 81): append at the tail (no message printed). -/
def insertLoop (a : Alarm) : List Alarm → List Alarm × List Out
  | [] => ([a], [])
  | n :: rest =>
    if n.type = 'A' ∧ n.messageNumber = a.messageNumber then
      (n :: rest, [Out.replacedA a.messageNumber a.type])
    else if a.time ≤ n.time then
      (a :: n :: rest, [Out.insertedA a.messageNumber a.type])
    else
      let p := insertLoop a rest
      (n :: p.1, p.2)

/-- `alarm_insert` (alarm_cond.c:45-106): run the scan loop, then the wake
decision (lines 99-105): if `current_alarm == 0` or the new alarm's time is
strictly earlier, set `current_alarm` to the new alarm's time and signal the
condition variable once; otherwise leave the marker alone and do not signal. -/
def alarm_insert (a : Alarm) (st : QState) : InsOut :=
  let p := insertLoop a st.list
  if st.marker = 0 ∨ a.time < st.marker then
    ⟨⟨p.1, a.time⟩, 1, p.2⟩
  else
    ⟨⟨p.1, st.marker⟩, 0, p.2⟩

/-- The validation loops of `main` (e.g. alarm_cond.c:304-310): `while (next
!= NULL) { if (p next) { print error; shouldProceed = false; break; } }`.
The loop body never advances `next`, so each iteration re-examines the same
head node; `fuel` counts loop iterations, `none` meaning the loop is still
running when the fuel runs out.  `some true` = loop exited with `next ==
NULL` (validation passed); `some false` = broke out with an error. -/
def checkLoop (p : Alarm → Bool) : Nat → List Alarm → Option Bool
  | _, [] => some true
  | 0, _ :: _ => none
  | fuel + 1, n :: rest => if p n then some false else checkLoop p fuel (n :: rest)

/-- The characters C's `isspace` (and hence scanf whitespace) accepts. -/
def isSpaceC (c : Char) : Bool :=
  c = ' ' ∨ c = '\t' ∨ c = '\n' ∨ c = '\r' ∨ c = '\x0b' ∨ c = '\x0c'

/-- C's `isdigit`. -/
def isDigitC (c : Char) : Bool := '0' ≤ c ∧ c ≤ '9'

/-- Skip scanf whitespace. -/
def dropWs (s : List Char) : List Char := s.dropWhile isSpaceC

/-- Decimal value of a digit string. -/
def digitsToNat (ds : List Char) : Nat :=
  ds.foldl (fun acc c => acc * 10 + (c.toNat - '0'.toNat)) 0

/-- Scan an unsigned decimal integer: at least one digit required. -/
def scanUInt (s : List Char) : Option (Nat × List Char) :=
  let ds := s.takeWhile isDigitC
  if ds.isEmpty then none else some (digitsToNat ds, s.drop ds.length)

/-- scanf `%d`: skip whitespace, optional sign, at least one digit
(overflow of C `int` is not modelled; all inputs used here are small). -/
def scanInt (s : List Char) : Option (Int × List Char) :=
  match dropWs s with
  | [] => none
  | c :: r0 =>
    if c = '-' then (scanUInt r0).map (fun p => (-(p.1 : Int), p.2))
    else if c = '+' then (scanUInt r0).map (fun p => ((p.1 : Int), p.2))
    else (scanUInt (c :: r0)).map (fun p => ((p.1 : Int), p.2))

/-- Match one exact literal (non-whitespace) format character. -/
def scanCh (c : Char) : List Char → Option (List Char)
  | [] => none
  | x :: r => if x = c then some r else none

/-- Match a sequence of exact literal format characters. -/
def scanChs : List Char → List Char → Option (List Char)
  | [], s => some s
  | c :: cs, s =>
    match scanCh c s with
    | none => none
    | some r => scanChs cs r

/-- scanf `%128[^\n]` (alarm_cond.c:277): no whitespace skip, up to `maxw`
characters other than newline, at least one required. -/
def scanBracketSet (maxw : Nat) (s : List Char) : Option (List Char × List Char) :=
  let t := (s.takeWhile (fun c => c ≠ '\n')).take maxw
  if t.isEmpty then none else some (t, s.drop t.length)

/-- `sscanf(line, "%d Message(%d, %d) %128[^\n]", ...)` (alarm_cond.c:277).
`some` exactly when the return value is ≥ 4, i.e. all four conversions were
assigned; the format's literal spaces skip any amount of whitespace and the
literal characters must match exactly. -/
def scanA (line : List Char) : Option (Int × Int × Int × List Char) :=
  match scanInt line with
  | none => none
  | some (sec, r1) =>
    match scanChs ("Message(".toList) (dropWs r1) with
    | none => none
    | some r2 =>
      match scanInt r2 with
      | none => none
      | some (mt, r3) =>
        match scanCh ',' r3 with
        | none => none
        | some r4 =>
          match scanInt r4 with
          | none => none
          | some (mn, r5) =>
            match scanCh ')' r5 with
            | none => none
            | some r6 =>
              match scanBracketSet 128 (dropWs r6) with
              | none => none
              | some (msg, _) => some (sec, mt, mn, msg)

/-- `sscanf(line, "Create_Thread: MessageType(%d)", ...)` (alarm_cond.c:296).
`some` exactly when the return value is ≥ 1, i.e. the `%d` was assigned (the
trailing `)` literal cannot affect the count and is ignored). -/
def scanB (line : List Char) : Option Int :=
  match scanChs ("Create_Thread:".toList) line with
  | none => none
  | some r1 =>
    match scanChs ("MessageType(".toList) (dropWs r1) with
    | none => none
    | some r2 => (scanInt r2).map Prod.fst

/-- `sscanf(line, "Cancel: Message(%d)", ...)` (alarm_cond.c:336); `some`
exactly when the return value is ≥ 1. -/
def scanC (line : List Char) : Option Int :=
  match scanChs ("Cancel:".toList) line with
  | none => none
  | some r1 =>
    match scanChs ("Message(".toList) (dropWs r1) with
    | none => none
    | some r2 => (scanInt r2).map Prod.fst

/-- `sscanf(line, "Pause_Thread: MessageType(%d)", ...)` (alarm_cond.c:377);
`some` exactly when the return value is ≥ 1. -/
def scanD (line : List Char) : Option Int :=
  match scanChs ("Pause_Thread:".toList) line with
  | none => none
  | some r1 =>
    match scanChs ("MessageType(".toList) (dropWs r1) with
    | none => none
    | some r2 => (scanInt r2).map Prod.fst

/-- `sscanf(line, "Resume_Thread: MessageType(%d)", ...)` (alarm_cond.c:418);
`some` exactly when the return value is ≥ 1. -/
def scanE (line : List Char) : Option Int :=
  match scanChs ("Resume_Thread:".toList) line with
  | none => none
  | some r1 =>
    match scanChs ("MessageType(".toList) (dropWs r1) with
    | none => none
    | some r2 => (scanInt r2).map Prod.fst

/-- The character-by-character keyword test used by `typeFinder`
(alarm_cond.c:179-247): `matchAt kw line` is `line[0] == kw[0] && line[1] ==
kw[1] && ...`.  (The C code indexes the 128-byte buffer directly, so for a
line shorter than the keyword it would compare stale in-buffer bytes past the
terminator; that unspecified case is modelled as a failed match and no claim
below depends on it.) -/
def matchAt : List Char → List Char → Bool
  | [], _ => true
  | _ :: _, [] => false
  | c :: cs, x :: xs => x = c ∧ matchAt cs xs

/-- `typeFinder` (alarm_cond.c:179-247). -/
def typeFinder (line : List Char) : Char :=
  if (match line with | c :: _ => isDigitC c | [] => false) then 'A'
  else if matchAt ("Create_Thread".toList) line then 'B'
  else if matchAt ("Cancel".toList) line then 'C'
  else if matchAt ("Pause_Thread".toList) line then 'D'
  else if matchAt ("Resume_Thread".toList) line then 'E'
  else 'F'

/-- Case 'A' of the `main` switch (alarm_cond.c:273-294): on parse failure
print "Bad command" to stderr and free the alarm; on success set the parsed
fields, `type = 'A'`, `time = time(NULL) + seconds`, and call `alarm_insert`.
`u` is the freshly malloc'd alarm (its fields model the uninitialized heap
bytes); `now` is `time(NULL)`. -/
def handleA (now : Int) (u : Alarm) (line : List Char) (st : QState) :
    QState × Nat × List Out :=
  match scanA line with
  | none => (st, 0, [Out.badCommand])
  | some (sec, mt, mn, msg) =>
    let a : Alarm := { u with type := 'A', seconds := sec, messageType := mt,
                              messageNumber := mn, time := now + sec, message := msg }
    let r := alarm_insert a st
    (r.st, r.signals, r.out)

/-- Case 'B' of the `main` switch (alarm_cond.c:295-334).  Note the guard as
written in the source: the body runs only when `sscanf(...) < 1`, i.e. when
the parse FAILS; on a well-formed `Create_Thread:` line the case does nothing
at all.  In the body, `alarm->messageType` and `alarm->seconds` keep their
uninitialized values (fields of `u`).  Both validation loops run one after
the other regardless of the first one's outcome. -/
def handleB (fuel : Nat) (now : Int) (u : Alarm) (line : List Char) (st : QState) :
    Option (QState × Nat × List Out) :=
  match scanB line with
  | some _ => some (st, 0, [])
  | none =>
    let a : Alarm := { u with type := 'B' }
    match checkLoop (fun n => n.type = 'A' ∧ n.messageType ≠ a.messageType) fuel st.list with
    | none => none
    | some ok1 =>
      match checkLoop (fun n => n.type = 'B' ∧ n.messageType = a.messageType) fuel st.list with
      | none => none
      | some ok2 =>
        let out1 : List Out := if ok1 then [] else [Out.errBNo a.messageType]
        let out2 : List Out := if ok2 then [] else [Out.errBDup a.messageType]
        if ok1 && ok2 then
          let a2 : Alarm := { a with time := now + a.seconds }
          let r := alarm_insert a2 st
          some (r.st, r.signals, out1 ++ out2 ++ r.out)
        else
          some (st, 0, out1 ++ out2)

/-- Case 'C' of the `main` switch (alarm_cond.c:335-375), with the same
inverted `sscanf(...) < 1` guard as case 'B'.  The second validation loop
tests `next->type == 'B'` (sic, alarm_cond.c:354), not `'C'`.  On success it
inserts and then prints the "Type C ... Inserted" line. -/
def handleC (fuel : Nat) (now : Int) (u : Alarm) (line : List Char) (st : QState) :
    Option (QState × Nat × List Out) :=
  match scanC line with
  | some _ => some (st, 0, [])
  | none =>
    let a : Alarm := { u with type := 'C' }
    match checkLoop (fun n => n.type = 'A' ∧ n.messageNumber ≠ a.messageNumber) fuel st.list with
    | none => none
    | some ok1 =>
      match checkLoop (fun n => n.type = 'B' ∧ n.messageNumber = a.messageNumber) fuel st.list with
      | none => none
      | some ok2 =>
        let out1 : List Out := if ok1 then [] else [Out.errCNo a.messageNumber]
        let out2 : List Out := if ok2 then [] else [Out.errCDup a.messageNumber]
        if ok1 && ok2 then
          let a2 : Alarm := { a with time := now + a.seconds }
          let r := alarm_insert a2 st
          some (r.st, r.signals, out1 ++ out2 ++ r.out ++ [Out.insertedC a.messageNumber a.type])
        else
          some (st, 0, out1 ++ out2)

/-- Case 'D' of the `main` switch (alarm_cond.c:376-416), same inverted
guard; the second loop tests `next->type == 'B' && next->messageNumber ==
alarm->messageNumber` (sic, alarm_cond.c:395). -/
def handleD (fuel : Nat) (now : Int) (u : Alarm) (line : List Char) (st : QState) :
    Option (QState × Nat × List Out) :=
  match scanD line with
  | some _ => some (st, 0, [])
  | none =>
    let a : Alarm := { u with type := 'D' }
    match checkLoop (fun n => n.type = 'A' ∧ n.messageType ≠ a.messageType) fuel st.list with
    | none => none
    | some ok1 =>
      match checkLoop (fun n => n.type = 'B' ∧ n.messageNumber = a.messageNumber) fuel st.list with
      | none => none
      | some ok2 =>
        let out1 : List Out := if ok1 then [] else [Out.errDNo a.messageType]
        let out2 : List Out := if ok2 then [] else [Out.errDDup a.messageType]
        if ok1 && ok2 then
          let a2 : Alarm := { a with time := now + a.seconds }
          let r := alarm_insert a2 st
          some (r.st, r.signals, out1 ++ out2 ++ r.out ++ [Out.insertedD a.messageType])
        else
          some (st, 0, out1 ++ out2)

/-- Case 'E' of the `main` switch (alarm_cond.c:417-457), same inverted
guard; first loop tests for type 'D', second for type 'E' with equal
`messageNumber` (alarm_cond.c:427,436). -/
def handleE (fuel : Nat) (now : Int) (u : Alarm) (line : List Char) (st : QState) :
    Option (QState × Nat × List Out) :=
  match scanE line with
  | some _ => some (st, 0, [])
  | none =>
    let a : Alarm := { u with type := 'E' }
    match checkLoop (fun n => n.type = 'D' ∧ n.messageType ≠ a.messageType) fuel st.list with
    | none => none
    | some ok1 =>
      match checkLoop (fun n => n.type = 'E' ∧ n.messageNumber = a.messageNumber) fuel st.list with
      | none => none
      | some ok2 =>
        let out1 : List Out := if ok1 then [] else [Out.errENo a.messageType]
        let out2 : List Out := if ok2 then [] else [Out.errEDup a.messageType]
        if ok1 && ok2 then
          let a2 : Alarm := { a with time := now + a.seconds }
          let r := alarm_insert a2 st
          some (r.st, r.signals, out1 ++ out2 ++ r.out ++ [Out.insertedE a.messageType])
        else
          some (st, 0, out1 ++ out2)

/-- One iteration of the intake loop of `main` (alarm_cond.c:260-461) on a
line already read by `fgets(line, 128, stdin)` (hence of length ≤ 127): skip
lines with `strlen <= 1`, malloc an alarm (`u` models its uninitialized
bytes), and dispatch on `typeFinder`.  Returns the updated globals, the
number of condition signals sent, and the lines printed; `none` means a
validation loop in the chosen case never terminated. -/
def dispatchLine (fuel : Nat) (now : Int) (u : Alarm) (line : List Char) (st : QState) :
    Option (QState × Nat × List Out) :=
  if line.length ≤ 1 then some (st, 0, [])
  else
    match typeFinder line with
    | 'A' => some (handleA now u line st)
    | 'B' => handleB fuel now u line st
    | 'C' => handleC fuel now u line st
    | 'D' => handleD fuel now u line st
    | 'E' => handleE fuel now u line st
    | _ => some (st, 0, [Out.badCommand2])

/-- The inner timed-wait loop of `alarm_thread` (alarm_cond.c:154-165):
`while (current_alarm == alarm->time) { pthread_cond_timedwait(...); }`,
breaking with `expired = 1` on ETIMEDOUT.  Each element of `ws` is one return
from `pthread_cond_timedwait`: the Bool says whether it returned ETIMEDOUT,
and the `QState` is the value of the globals at that wake (the dispatcher may
have run `alarm_insert` any number of times while the lock was released).
Returns `(expired, state at loop exit)`; `none` if the wake trace runs out
while the loop is still waiting. -/
def waitLoop (aTime : Int) : List (Bool × QState) → QState → Option (Bool × QState)
  | [], st => if st.marker = aTime then none else some (false, st)
  | (tOut, st2) :: ws2, st =>
    if st.marker = aTime then
      if tOut then some (true, st2) else waitLoop aTime ws2 st2
    else some (false, st)

/-- One iteration of the outer loop of `alarm_thread` (alarm_cond.c:127-176)
once the list is non-empty (the empty case blocks in `pthread_cond_wait` and
is returned as `none`): pop the head `a`; if `a.time > now` enter the timed
wait with `current_alarm := a.time` and the popped list — on ETIMEDOUT exit
fire `a` (print `(seconds) message` and free), on early exit (marker no
longer equals `a.time`) call `alarm_insert a` on the wake-time globals and
fire nothing; if `a` was already due, fire it immediately (`current_alarm`
is still 0 from the top of the loop, alarm_cond.c:134). -/
def alarm_thread_iter (st0 : QState) (now : Int) (ws : List (Bool × QState)) :
    Option (QState × List Out) :=
  match st0.list with
  | [] => none
  | a :: rest =>
    if now < a.time then
      match waitLoop a.time ws ⟨rest, a.time⟩ with
      | none => none
      | some (true, stw) => some (stw, [Out.fired a.seconds a.message])
      | some (false, stw) =>
        let r := alarm_insert a stw
        some (r.st, r.out)
    else
      some (⟨rest, 0⟩, [Out.fired a.seconds a.message])

/-- The branch order of the scan in `alarm_insert` (alarm_cond.c:58-75):
`hitsReplace a l = true` iff, walking `l` from the head, a node with `type ==
'A'` and the incoming alarm's `messageNumber` is reached before any node with
`time >= a.time` — exactly when the source's replacement branch (line 60)
executes. -/
def hitsReplace (a : Alarm) : List Alarm → Bool
  | [] => false
  | n :: rest =>
    if n.type = 'A' ∧ n.messageNumber = a.messageNumber then true
    else if a.time ≤ n.time then false
    else hitsReplace a rest

/-- A queued Schedule ('A') entry with messageNumber 7, expiry 100, used as a
concrete queue content below. -/
def sched7 : Alarm := ⟨'A', 5, 1, 7, 100, ['o', 'l', 'd']⟩

/-- A later Schedule request with the same messageNumber 7 but an earlier
expiry and different payload. -/
def newSched7 : Alarm := ⟨'A', 2, 1, 7, 50, ['n', 'e', 'w']⟩

/-- The uninitialized content of a freshly malloc'd `alarm_t` used in the
concrete dispatcher checks (type byte 'X', seconds 3, messageType 9,
messageNumber 9). -/
def u9 : Alarm := ⟨'X', 3, 9, 9, 0, []⟩

/-- Schedule entry, messageNumber 5, expiry 10. -/
def a5 : Alarm := ⟨'A', 1, 1, 5, 10, []⟩

/-- Schedule entry, messageNumber 6, expiry 20. -/
def a6 : Alarm := ⟨'A', 1, 1, 6, 20, []⟩

/-- Incoming Schedule request with messageNumber 6 (matching `a6`) but expiry
1, earlier than every queued entry. -/
def b6 : Alarm := ⟨'A', 1, 1, 6, 1, []⟩

/-- Schedule entry used in the worker-iteration checks: expiry 10. -/
def aW : Alarm := ⟨'A', 4, 1, 2, 10, ['x']⟩

/-- A concrete list built by two `alarm_insert` scans from the empty list. -/
def demoList : List Alarm := (insertLoop b6 (insertLoop a5 []).1).1

/-- The residue of `dispatchLine (k+1) 1000 u9 "Cancelx" ⟨[sched7], 0⟩` after
definitional reduction: the parse fails, the first validation loop breaks at
`sched7` (type 'A', number 7 ≠ 9) printing the no-such-alarm error, and the
step is stuck on the second validation loop, whose break condition `type ==
'B' && messageNumber == 9` the head `sched7` never satisfies. -/
def c5tail (k : Nat) : Option (QState × Nat × List Out) :=
  match checkLoop (fun n => n.type = 'B' ∧ n.messageNumber = (9 : Int)) k [sched7] with
  | none => none
  | some ok2 =>
    some (⟨[sched7], 0⟩, 0, [Out.errCNo 9] ++ (if ok2 then [] else [Out.errCDup 9]))

/-- List states of `alarm_list` reachable from the empty list by `alarm_insert`
calls (the list component of `alarm_insert` is `insertLoop`). -/
inductive Reachable : List Alarm → Prop
  | nil : Reachable []
  | step (a : Alarm) {l : List Alarm} : Reachable l → Reachable (insertLoop a l).1

/-- Every element of the list after an `alarm_insert` scan is the inserted
alarm or was already present. -/
lemma mem_insertLoop {x a : Alarm} : ∀ {l : List Alarm},
    x ∈ (insertLoop a l).1 → x = a ∨ x ∈ l := by
  intro l
  induction l with
  | nil =>
    intro h
    simpa [insertLoop] using h
  | cons n rest ih =>
    intro h
    by_cases h1 : n.type = 'A' ∧ n.messageNumber = a.messageNumber
    · simp [insertLoop, h1] at h
      exact Or.inr (List.mem_cons.mpr h)
    · by_cases h2 : a.time ≤ n.time
      · simp [insertLoop, h1, h2] at h
        rcases h with h | h | h
        · exact Or.inl h
        · exact Or.inr (by simp [h])
        · exact Or.inr (by simp [h])
      · simp [insertLoop, h1, h2] at h
        rcases h with h | h
        · exact Or.inr (by simp [h])
        · rcases ih h with h' | h'
          · exact Or.inl h'
          · exact Or.inr (by simp [h'])

/-- The `alarm_insert` scan preserves sortedness by `time`. -/
lemma insertLoop_sorted (a : Alarm) : ∀ {l : List Alarm},
    l.Sorted (fun x y : Alarm => x.time ≤ y.time) →
    ((insertLoop a l).1).Sorted (fun x y : Alarm => x.time ≤ y.time) := by
  intro l
  induction l with
  | nil =>
    intro _
    simp [insertLoop]
  | cons n rest ih =>
    intro hs
    rw [List.sorted_cons] at hs
    obtain ⟨hn, hrest⟩ := hs
    by_cases h1 : n.type = 'A' ∧ n.messageNumber = a.messageNumber
    · simpa [insertLoop, h1] using List.sorted_cons.mpr ⟨hn, hrest⟩
    · by_cases h2 : a.time ≤ n.time
      · simp only [insertLoop, if_neg h1, if_pos h2]
        refine List.sorted_cons.mpr ⟨?_, List.sorted_cons.mpr ⟨hn, hrest⟩⟩
        intro b hb
        rcases List.mem_cons.mp hb with rfl | hb'
        · exact h2
        · exact le_trans h2 (hn b hb')
      · simp only [insertLoop, if_neg h1, if_neg h2]
        refine List.sorted_cons.mpr ⟨?_, ih hrest⟩
        intro b hb
        rcases mem_insertLoop hb with rfl | hb'
        · exact le_of_lt (lt_of_not_le h2)
        · exact hn b hb'

/-- The original list is a sublist of the result of an `alarm_insert` scan:
no node is ever unlinked. -/
lemma sublist_insertLoop (a : Alarm) : ∀ l : List Alarm, l.Sublist (insertLoop a l).1 := by
  intro l
  induction l with
  | nil => simp [insertLoop]
  | cons n rest ih =>
    by_cases h1 : n.type = 'A' ∧ n.messageNumber = a.messageNumber
    · simp [insertLoop, h1]
    · by_cases h2 : a.time ≤ n.time
      · simp only [insertLoop, if_neg h1, if_pos h2]
        exact List.sublist_cons_self a (n :: rest)
      · simp only [insertLoop, if_neg h1, if_neg h2]
        exact List.Sublist.cons₂ n ih

/-- When the replacement branch is the one that fires, the scan returns the
list unchanged and prints exactly the replacement message. -/
lemma insertLoop_of_hitsReplace (a : Alarm) : ∀ {l : List Alarm},
    hitsReplace a l = true →
    insertLoop a l = (l, [Out.replacedA a.messageNumber a.type]) := by
  intro l
  induction l with
  | nil =>
    intro h
    simp [hitsReplace] at h
  | cons n rest ih =>
    intro h
    by_cases h1 : n.type = 'A' ∧ n.messageNumber = a.messageNumber
    · simp [insertLoop, h1]
    · by_cases h2 : a.time ≤ n.time
      · simp [hitsReplace, h1, h2] at h
      · simp only [hitsReplace, if_neg h1, if_neg h2] at h
        simp only [insertLoop, if_neg h1, if_neg h2, ih h]

/-- The scan never prints the worker's firing line. -/
lemma fired_not_in_insertLoop_out (a : Alarm) (s : Int) (m : List Char) :
    ∀ l : List Alarm, Out.fired s m ∉ (insertLoop a l).2 := by
  intro l
  induction l with
  | nil => simp [insertLoop]
  | cons n rest ih =>
    by_cases h1 : n.type = 'A' ∧ n.messageNumber = a.messageNumber
    · simp [insertLoop, h1]
    · by_cases h2 : a.time ≤ n.time
      · simp [insertLoop, h1, h2]
      · simpa [insertLoop, h1, h2] using ih

/-- The output of `alarm_insert` is exactly the output of its scan loop. -/
lemma alarm_insert_out (a : Alarm) (st : QState) :
    (alarm_insert a st).out = (insertLoop a st.list).2 := by
  unfold alarm_insert
  by_cases h : st.marker = 0 ∨ a.time < st.marker <;> simp [h]

/-- The list of `alarm_insert` is exactly the list of its scan loop. -/
lemma alarm_insert_list (a : Alarm) (st : QState) :
    (alarm_insert a st).st.list = (insertLoop a st.list).1 := by
  unfold alarm_insert
  by_cases h : st.marker = 0 ∨ a.time < st.marker <;> simp [h]

/-- C1: the code evaluated at the failing input.  The claim says a second
Schedule with the same messageNumber replaces the queued one (old entry
unlinked, new entry at its position with the new data).  Inserting
`newSched7` (number 7, time 50, message "new") into the queue holding
`sched7` (number 7, time 100, message "old") in fact leaves the queue
byte-for-byte unchanged — the old entry survives with its old data, the new
request is never linked in, and only the replacement message is printed. -/
theorem c1_replacement_leaves_old_entry :
    (insertLoop newSched7 [sched7]).1 = [sched7] ∧
      sched7.message ≠ newSched7.message ∧ sched7.time ≠ newSched7.time ∧
      (insertLoop newSched7 [sched7]).2 = [Out.replacedA 7 'A'] := by
  decide

/-- C2: every `alarm_list` state reachable from the empty list by
`alarm_insert` calls is non-decreasing in the `time` field — in this code
with no exception at all, because the same-messageNumber branch leaves the
list unchanged — and the head is always an entry of minimal `time`. -/
theorem c2_sort_invariant (l : List Alarm) (h : Reachable l) :
    l.Sorted (fun x y : Alarm => x.time ≤ y.time) ∧
      ∀ b, l.head? = some b → ∀ x ∈ l, b.time ≤ x.time := by
  have hs : l.Sorted (fun x y : Alarm => x.time ≤ y.time) := by
    induction h with
    | nil => simp
    | step a hr ih => exact insertLoop_sorted a ih
  refine ⟨hs, ?_⟩
  intro b hb x hx
  cases l with
  | nil => simp at hb
  | cons hd tl =>
    have hbd : hd = b := by simpa using hb
    subst hbd
    rcases List.mem_cons.mp hx with rfl | hx'
    · exact le_refl _
    · exact List.rel_of_sorted_cons hs x hx'

/-- Witness for C2: the sort invariant instantiated at the concrete state
reached by inserting `a5` then `b6` into the empty list. -/
theorem c2_sort_invariant_witness :
    demoList.Sorted (fun x y : Alarm => x.time ≤ y.time) :=
  (c2_sort_invariant demoList (Reachable.step b6 (Reachable.step a5 Reachable.nil))).1

/-- C6: `alarm_insert` sets `current_alarm` to the inserted request's time
and signals the worker's condition exactly once iff `current_alarm` was 0 or
the request's time is strictly earlier; otherwise the marker is unchanged and
no signal is sent; and never more than one signal per insert. -/
theorem c6_wake_decision (a : Alarm) (st : QState) :
    (((alarm_insert a st).signals = 1 ∧ (alarm_insert a st).st.marker = a.time) ↔
      (st.marker = 0 ∨ a.time < st.marker)) ∧
    (¬(st.marker = 0 ∨ a.time < st.marker) →
      (alarm_insert a st).st.marker = st.marker ∧ (alarm_insert a st).signals = 0) ∧
    (alarm_insert a st).signals ≤ 1 := by
  unfold alarm_insert
  by_cases h : st.marker = 0 ∨ a.time < st.marker <;> simp [h]

/-- Witness for C6: inserting into the idle state (marker 0) sets the marker
to the request's time and signals once. -/
theorem c6_wake_decision_witness :
    (alarm_insert newSched7 ⟨[], 0⟩).signals = 1 ∧
      (alarm_insert newSched7 ⟨[], 0⟩).st.marker = newSched7.time :=
  (c6_wake_decision newSched7 ⟨[], 0⟩).1.mpr (Or.inl rfl)

/-- C10 counterexample: the claim's "in particular" part is false as stated.
With queue `[a5, a6]` (times 10, 20; numbers 5, 6) and incoming Schedule
`b6` (number 6, time 1), a queued Schedule with the same messageNumber
exists, yet the list does change: the time-order branch fires at `a5` before
the scan reaches the matching `a6`, the new node is linked at the front, and
the plain insertion message (not the replacement one) is printed. -/
theorem c10_matching_number_can_change_list :
    (∃ x ∈ [a5, a6], x.type = 'A' ∧ x.messageNumber = b6.messageNumber) ∧
      (insertLoop b6 [a5, a6]).1 ≠ [a5, a6] ∧
      (insertLoop b6 [a5, a6]).1 = b6 :: [a5, a6] ∧
      (insertLoop b6 [a5, a6]).2 = [Out.insertedA 6 'A'] := by
  decide

/-- C10 (amended): `alarm_insert` never unlinks an existing node — the prior
list is always a sublist of the result — and whenever the scan reaches a
type-'A' node carrying the incoming messageNumber before any node with time
≥ the incoming time (`hitsReplace`), the list is left entirely unchanged,
exactly the replacement diagnostic is printed, and the wake decision still
runs on the new request's expiry. -/
theorem c10_frame_amended (a : Alarm) (l : List Alarm) (m : Int) :
    l.Sublist (insertLoop a l).1 ∧
    (hitsReplace a l = true →
      (insertLoop a l).1 = l ∧
      (insertLoop a l).2 = [Out.replacedA a.messageNumber a.type] ∧
      ((m = 0 ∨ a.time < m) →
        (alarm_insert a ⟨l, m⟩).signals = 1 ∧
          (alarm_insert a ⟨l, m⟩).st.marker = a.time)) := by
  refine ⟨sublist_insertLoop a l, fun hrep => ?_⟩
  have heq := insertLoop_of_hitsReplace a hrep
  refine ⟨by rw [heq], by rw [heq], fun hm => ?_⟩
  unfold alarm_insert
  simp [hm]

/-- Witness for C10 (amended): the replacement branch fires for `newSched7`
against `[sched7]`, leaving the list unchanged and signalling on the new
expiry from the idle state. -/
theorem c10_frame_amended_witness :
    (insertLoop newSched7 [sched7]).1 = [sched7] ∧
      (alarm_insert newSched7 ⟨[sched7], 0⟩).signals = 1 := by
  have h := c10_frame_amended newSched7 [sched7] 0
  exact ⟨(h.2 (by decide)).1, ((h.2 (by decide)).2.2 (Or.inl rfl)).1⟩

/-- C3: the code evaluated at a failing input.  The claim says a well-formed
control line is parsed into a typed request, validated and, on acceptance,
inserted with an output line.  But cases 'B'-'E' of `main` guard the whole
body with `sscanf(...) < 1`, so on the well-formed line "Cancel: Message(7)"
(with a matching Schedule number 7 queued, which the spec's table accepts)
the parse succeeds, the guard is false, and the intake step does nothing at
all: no request is built, validated, inserted, and no line is printed. -/
theorem c3_wellformed_control_line_ignored :
    dispatchLine 5 1000 u9 ("Cancel: Message(7)".toList) ⟨[sched7], 0⟩ =
      some (⟨[sched7], 0⟩, 0, []) := by
  decide

/-- C4: the code evaluated at a failing input.  The claim says a Cancel for a
messageNumber with no queued Schedule entry is rejected (diagnostic, no
insert).  On the empty queue, the well-formed line "Cancel: Message(7)" makes
`sscanf` succeed, so the inverted `< 1` guard skips the entire validation
body: nothing is checked, nothing is printed, and no rejection happens. -/
theorem c4_cancel_validation_never_runs :
    dispatchLine 5 1000 u9 ("Cancel: Message(7)".toList) ⟨[], 0⟩ =
      some (⟨[], 0⟩, 0, []) := by
  decide

/-- C5: the code evaluated at the failing input, for every iteration budget.
The claim says the per-kind validation scan terminates on every queue
contents.  With the queue holding the single Schedule `sched7` (number 7)
and the Cancel-classified malformed line "Cancelx" (so the case-'C' body
actually runs, with the uninitialized messageNumber 9 from `u9`), the intake
step never finishes: the first loop breaks with an error at the head, and
the second loop — whose break condition `type=='B' && messageNumber==9` the
head never satisfies — re-examines the same node forever, for any fuel. -/
theorem c5_validation_scan_diverges :
    ∀ fuel : Nat, dispatchLine fuel 1000 u9 ("Cancelx".toList) ⟨[sched7], 0⟩ = none := by
  have key : ∀ m : Nat,
      checkLoop (fun n => n.type = 'B' ∧ n.messageNumber = (9 : Int)) m [sched7] = none := by
    intro m
    induction m with
    | zero => rfl
    | succ j ih => exact ih
  intro fuel
  cases fuel with
  | zero => rfl
  | succ k =>
    have hd : dispatchLine (k + 1) 1000 u9 ("Cancelx".toList) ⟨[sched7], 0⟩ = c5tail k := rfl
    rw [hd]
    simp only [c5tail, key k]

/-- C7: once the worker has popped the head item `a` and entered its timed
wait, (i) whenever the wait loop exits without ETIMEDOUT — which happens
exactly when `current_alarm` no longer equals `a.time` — the worker hands `a`
back to `alarm_insert` on the wake-time globals and does not fire it (no
fired line is printed), and (ii) a fired line for `a` is only produced when
the item was already due at pop time or the wait loop exited by timeout. -/
theorem c7_early_wake_requeues (a : Alarm) (rest : List Alarm) (m now : Int)
    (ws : List (Bool × QState)) :
    (∀ stw : QState, now < a.time →
      waitLoop a.time ws ⟨rest, a.time⟩ = some (false, stw) →
      alarm_thread_iter ⟨a :: rest, m⟩ now ws =
        some ((alarm_insert a stw).st, (alarm_insert a stw).out) ∧
      ∀ s msg, Out.fired s msg ∉ (alarm_insert a stw).out) ∧
    (∀ st2 outs, alarm_thread_iter ⟨a :: rest, m⟩ now ws = some (st2, outs) →
      Out.fired a.seconds a.message ∈ outs →
      a.time ≤ now ∨ ∃ stw, waitLoop a.time ws ⟨rest, a.time⟩ = some (true, stw)) := by
  constructor
  · intro stw hlt hw
    constructor
    · simp [alarm_thread_iter, hlt, hw]
    · intro s msg
      rw [alarm_insert_out]
      exact fired_not_in_insertLoop_out a s msg stw.list
  · intro st2 outs hit hf
    by_cases hlt : now < a.time
    · cases hw : waitLoop a.time ws ⟨rest, a.time⟩ with
      | none => simp [alarm_thread_iter, hlt, hw] at hit
      | some p =>
        obtain ⟨expired, stw⟩ := p
        cases expired with
        | true => exact Or.inr ⟨stw, rfl⟩
        | false =>
          have : outs = (alarm_insert a stw).out := by
            simp [alarm_thread_iter, hlt, hw] at hit
            exact hit.2.symm
          rw [this] at hf
          rw [alarm_insert_out] at hf
          exact absurd hf (fired_not_in_insertLoop_out a a.seconds a.message stw.list)
    · exact Or.inl (le_of_not_lt hlt)

/-- Witness for C7: with `aW` (expiry 10) popped at `now = 0` and a single
non-timeout wake at which the globals read `⟨[], 5⟩` (an earlier deadline was
installed), the worker re-inserts `aW` via `alarm_insert` and fires nothing. -/
theorem c7_early_wake_requeues_witness :
    alarm_thread_iter ⟨[aW], 0⟩ 0 [(false, (⟨[], 5⟩ : QState))] =
      some ((alarm_insert aW ⟨[], 5⟩).st, (alarm_insert aW ⟨[], 5⟩).out) :=
  ((c7_early_wake_requeues aW [] 0 0 [(false, ⟨[], 5⟩)]).1 ⟨[], 5⟩ (by decide) (by decide)).1

/-- C9: the code evaluated at a failing input.  The claim says every
non-empty line matching none of the five command grammars is rejected with a
diagnostic, building and inserting nothing.  The line "Cancelx" matches no
grammar, but `typeFinder` classifies it 'C' and the inverted `sscanf < 1`
guard then RUNS the case-'C' body: on the empty queue both validation loops
pass vacuously, and the step inserts an alarm built from the uninitialized
malloc bytes (type 'C', garbage seconds/messageNumber from `u9`), signals
the worker, and prints the type-C "Inserted" line — no diagnostic at all. -/
theorem c9_unmatched_line_gets_inserted :
    dispatchLine 0 1000 u9 ("Cancelx".toList) ⟨[], 0⟩ =
      some (⟨[⟨'C', 3, 9, 9, 1003, []⟩], 1003⟩, 1, [Out.insertedC 9 'C']) := by
  decide

/-- Skipping whitespace never lengthens the input. -/
lemma dropWs_length_le (s : List Char) : (dropWs s).length ≤ s.length :=
  (List.dropWhile_sublist _).length_le

/-- The remainder after scanning an unsigned integer is no longer than the
input. -/
lemma scanUInt_length_le {s r : List Char} {v : Nat} (h : scanUInt s = some (v, r)) :
    r.length ≤ s.length := by
  simp only [scanUInt] at h
  split at h
  · simp at h
  · rw [Option.some.injEq, Prod.mk.injEq] at h
    rw [← h.2, List.length_drop]
    omega

/-- The remainder after scanf `%d` is no longer than the input. -/
lemma scanInt_length_le {s r : List Char} {v : Int} (h : scanInt s = some (v, r)) :
    r.length ≤ s.length := by
  have hws : (dropWs s).length ≤ s.length := dropWs_length_le s
  simp only [scanInt] at h
  cases ht : dropWs s with
  | nil => rw [ht] at h; simp at h
  | cons c r0 =>
    rw [ht] at h
    have hlen : r0.length + 1 ≤ s.length := by
      have := congrArg List.length ht
      simp at this
      omega
    by_cases hm : c = '-'
    · simp only [if_pos hm] at h
      rw [Option.map_eq_some'] at h
      obtain ⟨⟨pv, pr⟩, hp, hf⟩ := h
      rw [Prod.mk.injEq] at hf
      have := scanUInt_length_le hp
      have hr : pr = r := by simpa using hf.2
      rw [← hr]
      omega
    · by_cases hq : c = '+'
      · simp only [if_neg hm, if_pos hq] at h
        rw [Option.map_eq_some'] at h
        obtain ⟨⟨pv, pr⟩, hp, hf⟩ := h
        rw [Prod.mk.injEq] at hf
        have := scanUInt_length_le hp
        have hr : pr = r := by simpa using hf.2
        rw [← hr]
        omega
      · simp only [if_neg hm, if_neg hq] at h
        rw [Option.map_eq_some'] at h
        obtain ⟨⟨pv, pr⟩, hp, hf⟩ := h
        rw [Prod.mk.injEq] at hf
        have := scanUInt_length_le hp
        have hr : pr = r := by simpa using hf.2
        rw [← hr]
        simp only [List.length_cons] at this
        omega

/-- The remainder after matching one literal character is shorter than the
input. -/
lemma scanCh_length_le {c : Char} {s r : List Char} (h : scanCh c s = some r) :
    r.length ≤ s.length := by
  cases s with
  | nil => simp [scanCh] at h
  | cons x t =>
    simp only [scanCh] at h
    split at h
    · rw [Option.some.injEq] at h
      rw [← h]
      simp
    · simp at h

/-- The remainder after matching a literal string is no longer than the
input. -/
lemma scanChs_length_le : ∀ {cs s r : List Char}, scanChs cs s = some r → r.length ≤ s.length := by
  intro cs
  induction cs with
  | nil =>
    intro s r h
    simp only [scanChs, Option.some.injEq] at h
    exact le_of_eq (by rw [h])
  | cons c cs2 ih =>
    intro s r h
    simp only [scanChs] at h
    cases hc : scanCh c s with
    | none => rw [hc] at h; simp at h
    | some t =>
      rw [hc] at h
      exact le_trans (ih h) (scanCh_length_le hc)

/-- The text captured by `%128[^\n]` is no longer than the input it is read
from. -/
lemma scanBracketSet_length_le {w : Nat} {s t r : List Char}
    (h : scanBracketSet w s = some (t, r)) : t.length ≤ s.length := by
  simp only [scanBracketSet] at h
  split at h
  · simp at h
  · rw [Option.some.injEq, Prod.mk.injEq] at h
    rw [← h.1]
    exact le_trans (List.take_sublist _ _).length_le (List.takeWhile_sublist _).length_le

/-- The message captured by the Schedule-line parse is no longer than the
line itself. -/
lemma scanA_message_le {line : List Char} {sec mt mn : Int} {msg : List Char}
    (h : scanA line = some (sec, mt, mn, msg)) : msg.length ≤ line.length := by
  simp only [scanA] at h
  split at h
  · simp at h
  next p1 v1 r1 heq1 =>
    split at h
    · simp at h
    next r2 heq2 =>
      split at h
      · simp at h
      next p2 v2 r3 heq3 =>
        split at h
        · simp at h
        next r4 heq4 =>
          split at h
          · simp at h
          next p3 v3 r5 heq5 =>
            split at h
            · simp at h
            next r6 heq6 =>
              split at h
              · simp at h
              next p4 msg0 rest0 heq7 =>
                rw [Option.some.injEq, Prod.mk.injEq, Prod.mk.injEq, Prod.mk.injEq] at h
                have b7 : msg0.length ≤ (dropWs r6).length := scanBracketSet_length_le heq7
                have b6 : r6.length ≤ r5.length := scanCh_length_le heq6
                have b5 : r5.length ≤ r4.length := scanInt_length_le heq5
                have b4 : r4.length ≤ r3.length := scanCh_length_le heq4
                have b3 : r3.length ≤ r2.length := scanInt_length_le heq3
                have b2 : r2.length ≤ (dropWs r1).length := scanChs_length_le heq2
                have b1 : r1.length ≤ line.length := scanInt_length_le heq1
                have w6 : (dropWs r6).length ≤ r6.length := dropWs_length_le r6
                have w1 : (dropWs r1).length ≤ r1.length := dropWs_length_le r1
                rw [← h.2.2.2]
                omega

/-- C8: for any line `fgets(line, 128, stdin)` can deliver (length ≤ 127),
an accepted Schedule parse stores at most 127 payload characters in
`message`: the `%128[^\n]` conversion cannot capture more characters than
remain in the line. -/
theorem c8_message_bounded {line : List Char} (hlen : line.length ≤ 127)
    {sec mt mn : Int} {msg : List Char} (h : scanA line = some (sec, mt, mn, msg)) :
    msg.length ≤ 127 :=
  le_trans (scanA_message_le h) hlen

/-- Witness for C8 at the spec's end-to-end example line. -/
theorem c8_message_bounded_witness :
    scanA ("5 Message(1, 100) hello".toList) = some (5, 1, 100, "hello".toList) ∧
      ("hello".toList).length ≤ 127 :=
  ⟨by decide,
    @c8_message_bounded ("5 Message(1, 100) hello".toList) (by decide) 5 1 100
      ("hello".toList) (by decide)⟩

end AlarmCond
